import Mathlib

/-!
# Verification of the dedsec-os command-execution security boundary

Shallow embedding of the security-relevant subsystems of `app.py`:
the argument validators and whitelist gate (`execute_safe_command`),
the sudo token manager, the process supervisor (`ProcessManager`),
the scan-result cache (`PortScanner`), the bounded image cache
(`ImageCache`) and the SSID sanitizer (`sanitize_ssid`).

Strings are modelled at the ASCII level as `List Char`; Python's
`str.split(sep)` for a one-character separator is embedded as
`splitOnC`, and `int()` on a digit string as `digitsToNat`.
-/

set_option autoImplicit false

namespace DedsecOS

/-- Embedding of Python's `str.split(sep)` for a single-character
separator: `splitOnC '/' "a/b".data = [['a'], ['b']]`, and the split of
the empty string is `[[]]` (one empty field), as in Python. -/
def splitOnC (sep : Char) : List Char → List (List Char)
  | [] => [[]]
  | c :: cs =>
    if c = sep then [] :: splitOnC sep cs
    else
      match splitOnC sep cs with
      | [] => [[c]]
      | h :: t => (c :: h) :: t

/-- The value of a string of ASCII decimal digits. -/
def digitsToNat (l : List Char) : Nat :=
  l.foldl (fun n c => 10 * n + (c.toNat - 48)) 0

/-- ASCII-scope model of the character class Python's `str.strip()` and
`int()` treat as whitespace. -/
def pyWhitespace (c : Char) : Bool :=
  c == ' ' || c == '\t' || c == '\n' || c == '\r' ||
    c.toNat == 11 || c.toNat == 12

/-- `str.strip()`: drop whitespace from both ends. -/
def pyStrip (l : List Char) : List Char :=
  ((l.dropWhile pyWhitespace).reverse.dropWhile pyWhitespace).reverse

/-- Embedding of Python's `int()` on a numeric token: surrounding
whitespace is stripped, then the ASCII digits are read (so
`int('4\n') = 4`).  Python also accepts non-ASCII Unicode decimal
digits, which are outside this ASCII-level model's scope. -/
def pyInt (l : List Char) : Nat :=
  digitsToNat (pyStrip l)

/-- Whether the last character of the string is a newline — the one
position at which Python's `$` anchor (without `re.MULTILINE`) matches
in front of a character instead of at the end of the string. -/
def lastIsNewline (v : List Char) : Bool :=
  v.getLast? == some '\n'

/-! ## The IP/CIDR validator (`is_valid_ip_or_cidr`, app.py 606-627)

The Python function first matches the regex
`^(\d{1,3}\.){3}\d{1,3}(/\d{1,2})?$`, then re-splits the string and
checks every octet value is at most 255 and, when a `/N` suffix is
present, that `N` is at most 32.  The regex's shape condition is
embedded structurally: against an exact string the pattern holds
exactly when splitting on `/` yields one or two fields, the first
being four dot-separated runs of one to three digits, the second (if
present) a run of one or two digits.  Python's `$`, however, also
matches just before a newline that is the last character of the
string (no `re.MULTILINE` is set), so the whole regex additionally
accepts any matching string with one trailing `'\n'` appended; the
subsequent `int()` conversions strip that newline from the final
token.  Digits are modelled at the ASCII level (`\d` as `[0-9]`);
Python's acceptance of non-ASCII Unicode digits is out of scope. -/

/-- A 1-3 digit run, the `\d{1,3}` group of the octet regex. -/
def octetShape (o : List Char) : Bool :=
  decide (1 ≤ o.length) && decide (o.length ≤ 3) && o.all (·.isDigit)

/-- The `(\d{1,3}\.){3}\d{1,3}` part of the regex: exactly four
dot-separated 1-3 digit runs. -/
def ipShape (ip : List Char) : Bool :=
  match splitOnC '.' ip with
  | [a, b, c, d] => octetShape a && octetShape b && octetShape c && octetShape d
  | _ => false

/-- The regex `^(\d{1,3}\.){3}\d{1,3}(/\d{1,2})?$` matched against the
exact string, with no `$` end-of-line tolerance. -/
def ipcidrShapeCore (v : List Char) : Bool :=
  match splitOnC '/' v with
  | [ip] => ipShape ip
  | [ip, c] =>
      ipShape ip && decide (1 ≤ c.length) && decide (c.length ≤ 2) && c.all (·.isDigit)
  | _ => false

/-- The regex with Python's `$` semantics: it matches the exact string,
or the string minus a single trailing newline (before which `$` also
matches). -/
def ipcidrShape (v : List Char) : Bool :=
  ipcidrShapeCore v || (lastIsNewline v && ipcidrShapeCore v.dropLast)

/-- The numeric checks of `is_valid_ip_or_cidr` (app.py 613-625):
`int(octet) > 255` rejection for each octet of
`value.split('/')[0].split('.')` and `cidr > 32` rejection when the
split on `/` has two parts, the splits taken on the original string
(so the final token can carry the trailing newline that `int()`
strips). -/
def ipValueOk (v : List Char) : Bool :=
  match splitOnC '/' v with
  | [ip] => (splitOnC '.' ip).all (fun o => decide (pyInt o ≤ 255))
  | [ip, c] =>
      (splitOnC '.' ip).all (fun o => decide (pyInt o ≤ 255)) &&
        decide (pyInt c ≤ 32)
  | _ => false

/-- The same numeric checks specialised to whitespace-free tokens
(plain digit-string values); used only to factor the proofs. -/
def ipValueOkD (v : List Char) : Bool :=
  match splitOnC '/' v with
  | [ip] => (splitOnC '.' ip).all (fun o => decide (digitsToNat o ≤ 255))
  | [ip, c] =>
      (splitOnC '.' ip).all (fun o => decide (digitsToNat o ≤ 255)) &&
        decide (digitsToNat c ≤ 32)
  | _ => false

/-- Embedding of `is_valid_ip_or_cidr` (app.py 606-627): the regex shape
check (with `$`'s trailing-newline tolerance), then the `int()`-based
octet and CIDR value checks. -/
def is_valid_ip_or_cidr (v : List Char) : Bool :=
  ipcidrShape v && ipValueOk v

/-- Spec-worded predicate for C2: a decimal octet in dotted-decimal
notation — a run of one to three digits whose value is at most 255. -/
def specOctet (o : List Char) : Bool :=
  decide (1 ≤ o.length) && decide (o.length ≤ 3) && o.all (·.isDigit) &&
    decide (digitsToNat o ≤ 255)

/-- Spec-worded predicate for C2: four dot-separated decimal octets. -/
def specDottedQuad (ip : List Char) : Bool :=
  match splitOnC '.' ip with
  | [a, b, c, d] => specOctet a && specOctet b && specOctet c && specOctet d
  | _ => false

/-- Spec-worded predicate for C2, from the claim's sentence: four
dot-separated decimal octets each at most 255, optionally followed by
`/N` where `N` is a one- or two-digit number with `0 ≤ N ≤ 32`. -/
def specIpOrCidr (v : List Char) : Bool :=
  match splitOnC '/' v with
  | [ip] => specDottedQuad ip
  | [ip, n] =>
      specDottedQuad ip && decide (1 ≤ n.length) && decide (n.length ≤ 2) &&
        n.all (·.isDigit) && decide (digitsToNat n ≤ 32)
  | _ => false

/-! ## The port-range validator (`is_valid_port_range`, app.py 629-642)

The Python function matches `^\d+(-\d+)?(,\d+(-\d+)?)*$`, then checks
every maximal digit run (`re.findall(r'\d+', value)`) lies in
`[1, 65535]`.  Structurally: every comma-separated field is one digit
run or two runs joined by `-`, and given that shape the maximal digit
runs are the fields of the nested split, except that — by the same
`$` semantics as above — one trailing `'\n'` may follow the last run,
in which case the nested split's final field carries that newline,
which `int()` (modelled by `pyInt`) strips. -/

/-- A nonempty digit run, the `\d+` group of the port regex. -/
def portTokShape (t : List Char) : Bool :=
  decide (1 ≤ t.length) && t.all (·.isDigit)

/-- One comma-separated item of the port regex: `\d+` or `\d+-\d+`. -/
def portItemShape (it : List Char) : Bool :=
  match splitOnC '-' it with
  | [p] => portTokShape p
  | [p, q] => portTokShape p && portTokShape q
  | _ => false

/-- The regex `^\d+(-\d+)?(,\d+(-\d+)?)*$` matched against the exact
string, with no `$` end-of-line tolerance. -/
def portShapeCore (v : List Char) : Bool :=
  (splitOnC ',' v).all portItemShape

/-- The regex with Python's `$` semantics: the exact string, or the
string minus a single trailing newline. -/
def portShape (v : List Char) : Bool :=
  portShapeCore v || (lastIsNewline v && portShapeCore v.dropLast)

/-- The fields of the nested comma/dash split, which on a shape-valid
string are the maximal digit runs (`re.findall(r'\d+', value)`), up to
the one trailing newline the final field may carry. -/
def portTokens (v : List Char) : List (List Char) :=
  (splitOnC ',' v).flatMap (fun it => splitOnC '-' it)

/-- The numeric checks of `is_valid_port_range` (app.py 636-640):
every token's `int()` value in `[1, 65535]`. -/
def portValueOk (v : List Char) : Bool :=
  (portTokens v).all (fun t =>
    decide (1 ≤ pyInt t) && decide (pyInt t ≤ 65535))

/-- The same numeric checks specialised to whitespace-free tokens;
used only to factor the proofs. -/
def portValueOkD (v : List Char) : Bool :=
  (portTokens v).all (fun t =>
    decide (1 ≤ digitsToNat t) && decide (digitsToNat t ≤ 65535))

/-- Embedding of `is_valid_port_range` (app.py 629-642): the regex
shape check (with `$`'s trailing-newline tolerance), then every
numeric token in `[1, 65535]`. -/
def is_valid_port_range (v : List Char) : Bool :=
  portShape v && portValueOk v

/-- Spec-worded predicate for C3: a port token is a digit run whose
value lies in `[1, 65535]`. -/
def specPortTok (t : List Char) : Bool :=
  decide (1 ≤ t.length) && t.all (·.isDigit) &&
    decide (1 ≤ digitsToNat t) && decide (digitsToNat t ≤ 65535)

/-- Spec-worded predicate for C3: one comma-separated item, a single
port or an `a-b` range. -/
def specPortItem (it : List Char) : Bool :=
  match splitOnC '-' it with
  | [p] => specPortTok p
  | [p, q] => specPortTok p && specPortTok q
  | _ => false

/-- Spec-worded predicate for C3, from the claim's sentence: one or
more comma-separated items, each a single port or an `a-b` range, every
numeric token in `[1, 65535]`. -/
def specPortList (v : List Char) : Bool :=
  (splitOnC ',' v).all specPortItem

/-! ## The command whitelist gate (`execute_safe_command`, app.py 582-699)

`ALLOWED_COMMANDS` (app.py 542-580) maps a command name to its
canonical absolute path, its list of allowed literal flags, and an
optional `allow_ip_targets` flag (absent entries default to `False` via
`cmd_config.get('allow_ip_targets', False)`).  `execute_safe_command`
raises `SecurityError` for an unknown name or the first argument that
is neither an allowed flag nor (when IP targets are permitted) a valid
IP/CIDR or port range; otherwise it calls
`subprocess.run([path] + validated_args, ...)` — a list argument with
the default `shell=False`, i.e. argument-vector invocation. -/

/-- One entry of the `ALLOWED_COMMANDS` dictionary. -/
structure CmdConfig where
  path : String
  allowed_flags : List String
  allow_ip_targets : Bool
  deriving Repr, DecidableEq

/-- Embedding of the `ALLOWED_COMMANDS` dictionary (app.py 542-580). -/
def ALLOWED_COMMANDS : List (String × CmdConfig) :=
  [("nmap", ⟨"/usr/bin/nmap",
      ["-F", "-T4", "-sn", "-Pn", "-p", "--host-timeout", "60", "-oG", "-"], true⟩),
   ("airmon-ng", ⟨"/usr/sbin/airmon-ng", ["start", "stop", "status", "check", "kill"], false⟩),
   ("aireplay-ng", ⟨"/usr/sbin/aireplay-ng", ["--deauth", "--count", "-a", "-c", "-w"], false⟩),
   ("reaver", ⟨"/usr/sbin/reaver", ["-i", "-b", "-vv", "-K", "-N", "-t"], false⟩),
   ("iwconfig", ⟨"/sbin/iwconfig", ["wlan0", "wlan1", "monitor", "managed"], false⟩),
   ("nmcli", ⟨"/usr/bin/nmcli", ["-t", "-f", "dev", "wifi", "list", "connect"], false⟩),
   ("bluetoothctl", ⟨"/usr/bin/bluetoothctl", ["scan", "on", "off", "devices", "power"], false⟩),
   ("shutdown", ⟨"/usr/sbin/shutdown", ["-h", "now"], false⟩),
   ("reboot", ⟨"/usr/sbin/reboot", [], false⟩)]

/-- `cmd_name in ALLOWED_COMMANDS` / `ALLOWED_COMMANDS[cmd_name]`. -/
def lookupCmd (name : String) : Option CmdConfig :=
  ALLOWED_COMMANDS.lookup name

/-- The `SecurityError` raised by the gate (app.py 648, 672). -/
inductive SecurityError where
  | commandNotAllowed (cmd : String)
  | argumentNotAllowed (arg : String)
  deriving Repr, DecidableEq

/-- The per-argument acceptance test of `execute_safe_command`
(app.py 657-672): a literal allowed flag, or — when the command permits
IP targets — a valid IP/CIDR, or a valid port range. -/
def acceptsArg (cfg : CmdConfig) (arg : String) : Bool :=
  decide (arg ∈ cfg.allowed_flags) ||
    (cfg.allow_ip_targets && is_valid_ip_or_cidr arg.data) ||
    (cfg.allow_ip_targets && is_valid_port_range arg.data)

/-- Embedding of the validation phase of `execute_safe_command`
(app.py 644-675): reject an unknown command name; walk the arguments in
order and raise at the first one that is not accepted; otherwise build
`final_cmd = [cmd_path] + validated_args`, where the accepted
arguments appear in their original order. -/
def validate_command (cmd_name : String) (args : List String) :
    Except SecurityError (List String) :=
  match lookupCmd cmd_name with
  | none => .error (.commandNotAllowed cmd_name)
  | some cfg =>
    match args.find? (fun a => !acceptsArg cfg a) with
    | some bad => .error (.argumentNotAllowed bad)
    | none => .ok (cfg.path :: args)

/-- The argument vector handed to the OS by `execute_safe_command`, if
any: `none` exactly when `SecurityError` is raised before any exec. -/
def executedArgv (cmd_name : String) (args : List String) : Option (List String) :=
  (validate_command cmd_name args).toOption

/-- Outcome of the one `subprocess.run` call inside
`execute_safe_command`: normal completion, `subprocess.TimeoutExpired`
(by which point `subprocess.run` has already killed and reaped the
child), or any other exception, carrying its text. -/
inductive ExecOutcome where
  | completed (stdout stderr : String) (returncode : Int)
  | timedOut
  | failed (err : String)
  deriving Repr, DecidableEq

/-- Embedding of the `try/except` around `subprocess.run` in
`execute_safe_command` (app.py 677-699): completion returns the
process's triple; `TimeoutExpired` is converted to the sentinel
`("", "Command timeout (Ns)", 124)`; any other exception is converted
to `("", str(e), 1)`.  No branch re-raises. -/
def runWhitelisted (timeout : Nat) (outcome : ExecOutcome) : String × String × Int :=
  match outcome with
  | .completed o e c => (o, e, c)
  | .timedOut => ("", "Command timeout (" ++ toString timeout ++ "s)", 124)
  | .failed msg => ("", msg, 1)

/-- Embedding of the whole of `execute_safe_command` (app.py 582-699),
parameterised by the OS exec layer `run` (applied only after
validation succeeds). -/
def execute_safe_command (cmd_name : String) (args : List String) (timeout : Nat)
    (run : List String → ExecOutcome) : Except SecurityError (String × String × Int) :=
  match validate_command cmd_name args with
  | .error e => .error e
  | .ok argv => .ok (runWhitelisted timeout (run argv))

/-- Spec-worded rejection condition for one argument (C1): it neither
equals a literal in the command's allowed-flag list, nor (when the
command permits IP targets) passes the IP/CIDR or port-range
validator. -/
def specRejectsArg (cfg : CmdConfig) (a : String) : Prop :=
  a ∉ cfg.allowed_flags ∧
    ¬(cfg.allow_ip_targets = true ∧
      (is_valid_ip_or_cidr a.data = true ∨ is_valid_port_range a.data = true))

instance (cfg : CmdConfig) (a : String) : Decidable (specRejectsArg cfg a) := by
  unfold specRejectsArg
  exact inferInstance

/-! ## The sudo token manager (`SudoTokenManager`, app.py 340-419)

State: `password`, `timestamp` (both `None` initially) and the TTL
`timeout_seconds` (default 900).  Timestamps are modelled as `Nat`
seconds; each operation takes the current time as an argument where
the Python reads `time.time()`. -/

/-- The mutable state of a `SudoTokenManager` instance. -/
structure SudoTokenManager where
  password : Option String
  timestamp : Option Nat
  timeout_seconds : Nat
  deriving Repr, DecidableEq

/-- `SudoTokenManager.__init__` (app.py 357-363). -/
def sudoInit (timeout_seconds : Nat) : SudoTokenManager :=
  ⟨none, none, timeout_seconds⟩

/-- `set_password` (app.py 365-378): store the value and the current
time, under the lock. -/
def set_password (s : SudoTokenManager) (p : String) (now : Nat) : SudoTokenManager :=
  { s with password := some p, timestamp := some now }

/-- `get_password` (app.py 380-401): `None` when nothing is stored;
otherwise compute `age = now - timestamp` and, when `age >
timeout_seconds`, clear both fields and return `None`; otherwise
return the stored value unchanged. -/
def get_password (s : SudoTokenManager) (now : Nat) :
    Option String × SudoTokenManager :=
  match s.password with
  | none => (none, s)
  | some p =>
    let age := now - s.timestamp.getD 0
    if s.timeout_seconds < age then
      (none, { s with password := none, timestamp := none })
    else
      (some p, s)

/-- `clear` (app.py 407-415): zero both fields when a password is
stored; a no-op when already empty. -/
def sudoClear (s : SudoTokenManager) : SudoTokenManager :=
  if s.password.isSome then { s with password := none, timestamp := none } else s

/-! ## The process supervisor (`ProcessManager`, app.py 859-961)

A tracked handle is modelled by its pid and whether `poll()` still
returns `None` (the process is alive). -/

/-- A tracked `subprocess.Popen` handle: `alive` iff `poll() is None`. -/
structure ProcHandle where
  pid : Nat
  alive : Bool
  deriving Repr, DecidableEq

/-- The state of a `ProcessManager`: the concurrency cap (default 10)
and the tracked handle list. -/
structure ProcessManager where
  max_processes : Nat
  active_processes : List ProcHandle
  deriving Repr, DecidableEq

/-- The admission phase of `run_safe` (app.py 884-889): under the lock,
prune handles whose `poll()` is not `None`, then refuse (return `None`,
spawning nothing) when the live count has reached `max_processes`.
The second component is `true` iff a new process may be spawned. -/
def runSafeAdmission (pm : ProcessManager) : ProcessManager × Bool :=
  let pruned := pm.active_processes.filter (fun p => p.alive)
  if pm.max_processes ≤ pruned.length then
    ({ pm with active_processes := pruned }, false)
  else
    ({ pm with active_processes := pruned }, true)

/-- `cleanup_all` (app.py 944-955): signal every tracked handle whose
`poll()` is `None` (terminate, then kill if the 2-second wait fails),
then clear the tracked list.  The second component is the list of
handles that were signalled. -/
def cleanup_all (pm : ProcessManager) : ProcessManager × List ProcHandle :=
  ({ pm with active_processes := [] },
    pm.active_processes.filter (fun p => p.alive))

/-- A termination signal sent to a child process. -/
inductive Sig where
  | sigterm
  | sigkill
  deriving Repr, DecidableEq

/-- Embedding of the `except subprocess.TimeoutExpired` handler of
`run_safe` (app.py 927-934): `process.kill()` first, then
`process.wait(timeout=5)`, and `process.terminate()` only when that
wait itself times out.  `exitsWithin5s` records whether the killed
process is reaped within the 5-second wait.  The returned list is the
sequence of signals sent, in order. -/
def runSafeTimeoutSignals (exitsWithin5s : Bool) : List Sig :=
  [Sig.sigkill] ++ (if exitsWithin5s then [] else [Sig.sigterm])

/-- The protocol stated by the spec for C7 (spec-worded, for
comparison): graceful termination first, a brief wait, and a hard kill
only if the process has not exited. -/
def specTimeoutSignals (exitsAfterTerm : Bool) : List Sig :=
  [Sig.sigterm] ++ (if exitsAfterTerm then [] else [Sig.sigkill])

/-- The `finally` block of `run_safe` (app.py 940-942): prune handles
whose `poll()` is not `None`. -/
def runSafeFinallyPrune (pm : ProcessManager) : ProcessManager :=
  { pm with active_processes := pm.active_processes.filter (fun p => p.alive) }

/-! ## The scan-result cache (`PortScanner`, app.py 981-1094)

Entries are `(target, timestamp, results)` tuples in a list bounded by
`max_cache` (default 5); freshness TTL is the literal 3600 seconds. -/

/-- One `(target, timestamp, results)` cache tuple. -/
structure ScanEntry where
  target : String
  timestamp : Nat
  results : String
  deriving Repr, DecidableEq

/-- Embedding of `get_cached_result` (app.py 1051-1073): scan the list
for the first entry with the requested target; return its results when
`now - timestamp < 3600`, else remove that entry and return `None`
(the loop `break`s, so only the first match is examined). -/
def get_cached_result (now : Nat) (target : String) :
    List ScanEntry → Option String × List ScanEntry
  | [] => (none, [])
  | e :: rest =>
    if e.target = target then
      if now - e.timestamp < 3600 then (some e.results, e :: rest)
      else (none, rest)
    else
      let (r, rest') := get_cached_result now target rest
      (r, e :: rest')

/-- Python's `lst[-m:]` on a list, including the `m = 0` case where
`lst[-0:]` is the whole list. -/
def sliceLastPy (l : List ScanEntry) (m : Nat) : List ScanEntry :=
  if m = 0 then l else l.drop (l.length - m)

/-- Embedding of `add_to_cache` (app.py 1075-1094): drop any entry with
the same target, append the new entry, then keep only the last
`max_cache` entries when the length exceeds `max_cache`. -/
def add_to_cache (now : Nat) (target results : String) (max_cache : Nat)
    (cache : List ScanEntry) : List ScanEntry :=
  let c1 := cache.filter (fun e => e.target != target)
  let c2 := c1 ++ [⟨target, now, results⟩]
  if max_cache < c2.length then sliceLastPy c2 max_cache else c2

/-! ## The bounded image cache (`ImageCache`, app.py 1572-1656)

The dict `cache` maps a key to an item whose only decision-relevant
field is `size` (the `data` payload and `timestamp` never influence
membership, counting or eviction); it is modelled as an association
list of `(key, size)` pairs with unique keys.  `access_order` is the
LRU list, oldest first.

`put(key, data)` (app.py 1627-1651) computes `size`, refuses items
larger than the whole cache, removes `key` from `access_order` (but
not from the dict) when it is already cached, then runs

    while len(cache) >= max_images or total_size() + size > max_size_bytes:
        _evict_lru()

and finally stores the item.  `_evict_lru` (app.py 1600-1608) is
itself a loop: while `len(cache) >= max_images or total_size() >
max_size_bytes`, pop the front of `access_order` and drop that key
from the dict, stopping early when `access_order` is empty.  A single
`_evict_lru` call therefore drives the state to a fixed point of its
own (weaker) condition: any further call leaves the state unchanged.
Consequently the outer `while` terminates exactly when its condition
is false either initially or after that first call — otherwise `put`
loops forever, which the embedding makes explicit with `PutResult.hangs`. -/

/-- The state of an `ImageCache`: bounds and the two containers. -/
structure ImageCache where
  max_images : Nat
  max_size_bytes : Nat
  cache : List (String × Nat)
  access_order : List String
  deriving Repr, DecidableEq

/-- `_total_size` (app.py 1610-1612). -/
def totalSize (cache : List (String × Nat)) : Nat :=
  (cache.map (fun e => e.2)).sum

/-- `del cache[k]` on the association list. -/
def eraseKey (cache : List (String × Nat)) (k : String) : List (String × Nat) :=
  cache.filter (fun e => e.1 != k)

/-- `_evict_lru` (app.py 1600-1608), as structural recursion on
`access_order`: while the count is at least `max_images` or the total
size exceeds `max_size_bytes`, pop the front key and drop it from the
dict; stop when the order list is exhausted.  Returns the remaining
dict and order list. -/
def evictLru (maxImages maxSizeBytes : Nat) :
    List (String × Nat) → List String → List (String × Nat) × List String
  | cache, [] => (cache, [])
  | cache, k :: rest =>
    if maxImages ≤ cache.length || maxSizeBytes < totalSize cache then
      evictLru maxImages maxSizeBytes (eraseKey cache k) rest
    else
      (cache, k :: rest)

/-- The condition of the `while` loop inside `put` (app.py 1641). -/
def putLoopCond (maxImages maxSizeBytes : Nat) (cache : List (String × Nat))
    (size : Nat) : Bool :=
  maxImages ≤ cache.length || maxSizeBytes < totalSize cache + size

/-- Result of `ImageCache.put`: `False` for an oversized item, a new
state on success, or divergence of the eviction loop. -/
inductive PutResult where
  | tooLarge (s : ImageCache)
  | hangs
  | stored (s : ImageCache)
  deriving Repr, DecidableEq

/-- Embedding of `ImageCache.put` (app.py 1627-1651).  The `size`
argument is `_get_size(data)`.  Note that when the key is already
present only `access_order` is updated before the eviction loop; the
dict entry (and its old size) stays until the final store. -/
def ImageCache.put (s : ImageCache) (key : String) (size : Nat) : PutResult :=
  if s.max_size_bytes < size then .tooLarge s
  else
    let order1 := if (s.cache.find? (fun e => e.1 == key)).isSome
      then s.access_order.erase key else s.access_order
    if putLoopCond s.max_images s.max_size_bytes s.cache size then
      let (cache2, order2) := evictLru s.max_images s.max_size_bytes s.cache order1
      if putLoopCond s.max_images s.max_size_bytes cache2 size then .hangs
      else
        .stored { s with cache := eraseKey cache2 key ++ [(key, size)],
                         access_order := order2 ++ [key] }
    else
      .stored { s with cache := eraseKey s.cache key ++ [(key, size)],
                       access_order := order1 ++ [key] }

/-! ## The SSID sanitizer (`sanitize_ssid`, app.py 291-336)

Modelled at the ASCII level: `str.isprintable` is the ASCII printable
range `0x20-0x7E`, `str.strip()` removes the ASCII whitespace
characters from both ends (every other Python whitespace character is
non-printable and already filtered away). -/

/-- ASCII-scope model of Python's `str.isprintable` per character. -/
def pyPrintable (c : Char) : Bool :=
  decide (32 ≤ c.toNat) && decide (c.toNat ≤ 126)

/-- The character class of the regex `([;&|`$(){}[\]<>\x27"])` used in
step 2 of `sanitize_ssid` (app.py 331). -/
def shellMetaChars : List Char :=
  [';', '&', '|', Char.ofNat 96, '$', '(', ')', Char.ofNat 123,
    Char.ofNat 125, '[', ']', '<', '>', Char.ofNat 39, Char.ofNat 34]

/-- `re.sub(shell_chars, r'\\\1', ssid)`: prefix every shell
metacharacter with a backslash. -/
def escapeShell (l : List Char) : List Char :=
  l.flatMap (fun c => if shellMetaChars.contains c then ['\\', c] else [c])

/-- The `'<HIDDEN>'` placeholder. -/
def hiddenSsid : List Char :=
  "<HIDDEN>".data

/-- Embedding of `sanitize_ssid` (app.py 291-336): empty input yields
`'<HIDDEN>'`; otherwise keep only printable characters, strip and
truncate to 32; if nothing remains yield `'<HIDDEN>'`; otherwise
backslash-escape the shell metacharacters. -/
def sanitize_ssid (s : List Char) : List Char :=
  if s.isEmpty then hiddenSsid
  else
    let s1 := s.filter pyPrintable
    let s2 := (pyStrip s1).take 32
    if s2.isEmpty then hiddenSsid
    else escapeShell s2

/-! ### Helper lemmas: the validators equal their spec-worded forms -/

lemma quad_equiv (ip : List Char) :
    (ipShape ip && (splitOnC '.' ip).all (fun o => decide (digitsToNat o ≤ 255))) =
      specDottedQuad ip := by
  unfold ipShape specDottedQuad
  rcases h : splitOnC '.' ip with _ | ⟨a, _ | ⟨b, _ | ⟨c, _ | ⟨d, _ | ⟨e, t⟩⟩⟩⟩⟩ <;>
    first
      | (rw [Bool.eq_iff_iff]
         simp only [octetShape, specOctet, List.all_cons, List.all_nil, Bool.and_eq_true,
           Bool.and_true, decide_eq_true_eq]
         tauto)
      | simp

lemma ipD_equiv (v : List Char) : (ipcidrShapeCore v && ipValueOkD v) = specIpOrCidr v := by
  unfold ipValueOkD specIpOrCidr ipcidrShapeCore
  rcases h : splitOnC '/' v with _ | ⟨ip, _ | ⟨c, _ | ⟨e, t⟩⟩⟩
  · simp
  · simpa using quad_equiv ip
  · rw [Bool.eq_iff_iff]
    have hq := quad_equiv ip
    rw [Bool.eq_iff_iff] at hq
    simp only [Bool.and_eq_true, decide_eq_true_eq] at hq ⊢
    tauto
  · simp

lemma all_and_distrib (p q : List Char → Bool) (l : List (List Char)) :
    l.all (fun x => p x && q x) = (l.all p && l.all q) := by
  induction l with
  | nil => rfl
  | cons x xs ih =>
      simp only [List.all_cons, ih]
      rw [Bool.eq_iff_iff]
      simp only [Bool.and_eq_true]
      tauto

lemma port_item_equiv (it : List Char) :
    (portItemShape it && (splitOnC '-' it).all (fun t =>
        decide (1 ≤ digitsToNat t) && decide (digitsToNat t ≤ 65535))) =
      specPortItem it := by
  unfold portItemShape specPortItem
  rcases h : splitOnC '-' it with _ | ⟨p, _ | ⟨q, _ | ⟨e, t⟩⟩⟩ <;>
    first
      | (rw [Bool.eq_iff_iff]
         simp only [portTokShape, specPortTok, List.all_cons, List.all_nil, Bool.and_eq_true,
           Bool.and_true, decide_eq_true_eq]
         tauto)
      | simp

lemma portD_equiv (v : List Char) : (portShapeCore v && portValueOkD v) = specPortList v := by
  unfold portValueOkD portShapeCore portTokens specPortList
  rw [List.all_flatMap, ← all_and_distrib]
  simp only [port_item_equiv]

/-! ### Helper lemmas: the trailing-newline tolerance of the `$` anchor -/

lemma splitOnC_snoc (sep c : Char) (hc : c ≠ sep) (l : List Char) :
    ∃ M f, splitOnC sep l = M ++ [f] ∧ splitOnC sep (l ++ [c]) = M ++ [f ++ [c]] := by
  induction l with
  | nil =>
      refine ⟨[], [], rfl, ?_⟩
      simp [splitOnC, hc]
  | cons x xs ih =>
      obtain ⟨M, f, h1, h2⟩ := ih
      by_cases hx : x = sep
      · refine ⟨[] :: M, f, ?_, ?_⟩
        · simp [splitOnC, hx, h1]
        · simp [splitOnC, hx, h2]
      · cases M with
        | nil =>
            simp only [List.nil_append] at h1 h2
            refine ⟨[], x :: f, ?_, ?_⟩
            · simp [splitOnC, hx, h1]
            · simp [splitOnC, hx, h2]
        | cons m M2 =>
            refine ⟨(x :: m) :: M2, f, ?_, ?_⟩
            · simp [splitOnC, hx, h1]
            · simp [splitOnC, hx, h2]

lemma digit_not_ws (c : Char) (h : c.isDigit = true) : pyWhitespace c = false := by
  have hn : 48 ≤ c.toNat ∧ c.toNat ≤ 57 := by
    simp only [Char.isDigit, Bool.and_eq_true, decide_eq_true_eq] at h
    exact h
  unfold pyWhitespace
  simp only [Bool.or_eq_false_iff, beq_eq_false_iff_ne, ne_eq]
  refine ⟨⟨⟨⟨⟨?_, ?_⟩, ?_⟩, ?_⟩, ?_⟩, ?_⟩ <;> intro hcon
  · subst hcon; simp at hn
  · subst hcon; simp at hn
  · subst hcon; simp at hn
  · subst hcon; simp at hn
  · omega
  · omega

lemma dropWhile_id_of_all (p : Char → Bool) (l : List Char)
    (h : ∀ c ∈ l, p c = false) : l.dropWhile p = l := by
  cases l with
  | nil => rfl
  | cons c t =>
      rw [List.dropWhile_cons, if_neg]
      simp [h c (List.mem_cons_self c t)]

lemma pyStrip_id_of_no_ws (l : List Char) (h : ∀ c ∈ l, pyWhitespace c = false) :
    pyStrip l = l := by
  unfold pyStrip
  rw [dropWhile_id_of_all _ _ h,
      dropWhile_id_of_all _ _ (fun c hc => h c (List.mem_reverse.mp hc)),
      List.reverse_reverse]

lemma pyStrip_append_ws (l : List Char) (w : Char) (hw : pyWhitespace w = true) :
    pyStrip (l ++ [w]) = pyStrip l := by
  unfold pyStrip
  rw [List.dropWhile_append]
  by_cases he : (l.dropWhile pyWhitespace).isEmpty
  · rw [if_pos he]
    rw [List.isEmpty_iff] at he
    rw [he]
    simp [List.dropWhile, hw]
  · rw [if_neg he]
    rw [List.reverse_append]
    simp only [List.reverse_cons, List.reverse_nil, List.nil_append, List.singleton_append]
    rw [List.dropWhile_cons, if_pos (by simp [hw])]

lemma pyInt_digits (l : List Char) (h : l.all Char.isDigit = true) :
    pyInt l = digitsToNat l := by
  unfold pyInt
  rw [List.all_eq_true] at h
  rw [pyStrip_id_of_no_ws l (fun c hc => digit_not_ws c (h c hc))]

lemma pyInt_append_nl (g : List Char) : pyInt (g ++ ['\n']) = pyInt g := by
  unfold pyInt
  rw [pyStrip_append_ws _ _ (by decide)]

lemma all_congr_mem {α : Type} (f g : α → Bool) (l : List α)
    (h : ∀ x ∈ l, f x = g x) : l.all f = l.all g := by
  induction l with
  | nil => rfl
  | cons x xs ih =>
      simp only [List.all_cons]
      rw [h x (List.mem_cons_self x xs), ih (fun y hy => h y (List.mem_cons_of_mem x hy))]

lemma octetShape_snoc_nl (g : List Char) : octetShape (g ++ ['\n']) = false := by
  unfold octetShape
  have h : (['\n'].all (fun c => c.isDigit)) = false := by decide
  simp only [List.all_append, h, Bool.and_false]

lemma specOctet_snoc_nl (g : List Char) : specOctet (g ++ ['\n']) = false := by
  unfold specOctet
  have h : (['\n'].all (fun c => c.isDigit)) = false := by decide
  simp only [List.all_append, h, Bool.and_false, Bool.false_and]

lemma ipShape_snoc_nl (f : List Char) : ipShape (f ++ ['\n']) = false := by
  obtain ⟨Q, g, q1, q2⟩ := splitOnC_snoc '.' '\n' (by decide) f
  unfold ipShape
  rw [q2]
  rcases Q with _ | ⟨a, _ | ⟨b, _ | ⟨c, _ | ⟨d, Q5⟩⟩⟩⟩
  · rfl
  · rfl
  · rfl
  · simp only [List.cons_append, List.nil_append, octetShape_snoc_nl, Bool.and_false]
  · rcases hq : Q5 ++ [g ++ ['\n']] with _ | ⟨x, xs⟩
    · simp at hq
    · simp only [List.cons_append, hq]

lemma specDottedQuad_snoc_nl (f : List Char) : specDottedQuad (f ++ ['\n']) = false := by
  obtain ⟨Q, g, q1, q2⟩ := splitOnC_snoc '.' '\n' (by decide) f
  unfold specDottedQuad
  rw [q2]
  rcases Q with _ | ⟨a, _ | ⟨b, _ | ⟨c, _ | ⟨d, Q5⟩⟩⟩⟩
  · rfl
  · rfl
  · rfl
  · simp only [List.cons_append, List.nil_append, specOctet_snoc_nl, Bool.and_false]
  · rcases hq : Q5 ++ [g ++ ['\n']] with _ | ⟨x, xs⟩
    · simp at hq
    · simp only [List.cons_append, hq]

lemma ipcidrShapeCore_snoc_nl (t : List Char) :
    ipcidrShapeCore (t ++ ['\n']) = false := by
  obtain ⟨M, f, h1, h2⟩ := splitOnC_snoc '/' '\n' (by decide) t
  unfold ipcidrShapeCore
  rw [h2]
  rcases M with _ | ⟨m, _ | ⟨m2, M3⟩⟩
  · simp only [List.nil_append, ipShape_snoc_nl]
  · have h : (['\n'].all (fun c => c.isDigit)) = false := by decide
    simp only [List.cons_append, List.nil_append, List.all_append, h, Bool.and_false]
  · rcases hq : M3 ++ [f ++ ['\n']] with _ | ⟨x, xs⟩
    · simp at hq
    · simp only [List.cons_append, hq]

lemma specIpOrCidr_snoc_nl (t : List Char) : specIpOrCidr (t ++ ['\n']) = false := by
  obtain ⟨M, f, h1, h2⟩ := splitOnC_snoc '/' '\n' (by decide) t
  unfold specIpOrCidr
  rw [h2]
  rcases M with _ | ⟨m, _ | ⟨m2, M3⟩⟩
  · simp only [List.nil_append, specDottedQuad_snoc_nl]
  · have h : (['\n'].all (fun c => c.isDigit)) = false := by decide
    simp only [List.cons_append, List.nil_append, List.all_append, h, Bool.and_false,
      Bool.false_and]
  · rcases hq : M3 ++ [f ++ ['\n']] with _ | ⟨x, xs⟩
    · simp at hq
    · simp only [List.cons_append, hq]

lemma ipValueOk_snoc_nl (t : List Char) : ipValueOk (t ++ ['\n']) = ipValueOk t := by
  obtain ⟨M, f, h1, h2⟩ := splitOnC_snoc '/' '\n' (by decide) t
  unfold ipValueOk
  rw [h1, h2]
  rcases M with _ | ⟨m, _ | ⟨m2, M3⟩⟩
  · simp only [List.nil_append]
    obtain ⟨Q, g, q1, q2⟩ := splitOnC_snoc '.' '\n' (by decide) f
    rw [q1, q2, List.all_append, List.all_append]
    simp only [List.all_cons, List.all_nil]
    rw [pyInt_append_nl]
  · simp only [List.cons_append, List.nil_append]
    rw [pyInt_append_nl]
  · rcases hq : M3 ++ [f ++ ['\n']] with _ | ⟨x, xs⟩
    · simp at hq
    · rcases hq' : M3 ++ [f] with _ | ⟨y, ys⟩
      · simp at hq'
      · simp only [List.cons_append, hq, hq']

lemma ipShape_tokens_digits (ip o : List Char) (h : ipShape ip = true)
    (ho : o ∈ splitOnC '.' ip) : o.all Char.isDigit = true := by
  unfold ipShape at h
  revert h ho
  rcases splitOnC '.' ip with _ | ⟨a, _ | ⟨b, _ | ⟨c, _ | ⟨d, _ | ⟨e, t⟩⟩⟩⟩⟩ <;>
    intro h ho
  · exact Bool.noConfusion h
  · exact Bool.noConfusion h
  · exact Bool.noConfusion h
  · exact Bool.noConfusion h
  · have h' : (((octetShape a && octetShape b) && octetShape c) && octetShape d) = true := h
    simp only [octetShape, Bool.and_eq_true] at h'
    obtain ⟨⟨⟨⟨_, ha⟩, ⟨_, hb⟩⟩, ⟨_, hc⟩⟩, ⟨_, hd⟩⟩ := h'
    rcases List.mem_cons.mp ho with rfl | ho'
    · exact ha
    rcases List.mem_cons.mp ho' with rfl | ho''
    · exact hb
    rcases List.mem_cons.mp ho'' with rfl | ho3
    · exact hc
    rcases List.mem_cons.mp ho3 with rfl | ho4
    · exact hd
    · cases ho4
  · exact Bool.noConfusion h

lemma ipValueOk_eq_D (v : List Char) (h : ipcidrShapeCore v = true) :
    ipValueOk v = ipValueOkD v := by
  unfold ipcidrShapeCore at h
  unfold ipValueOk ipValueOkD
  revert h
  rcases splitOnC '/' v with _ | ⟨ip, _ | ⟨c, _ | ⟨e, tl⟩⟩⟩ <;> intro h
  · exact Bool.noConfusion h
  · have hip : ipShape ip = true := h
    show ((splitOnC '.' ip).all (fun o => decide (pyInt o ≤ 255))) =
      ((splitOnC '.' ip).all (fun o => decide (digitsToNat o ≤ 255)))
    apply all_congr_mem
    intro o ho
    rw [pyInt_digits o (ipShape_tokens_digits ip o hip ho)]
  · have h' : (((ipShape ip && decide (1 ≤ c.length)) && decide (c.length ≤ 2)) &&
        c.all (fun x => x.isDigit)) = true := h
    simp only [Bool.and_eq_true] at h'
    obtain ⟨⟨⟨hip, _⟩, _⟩, hcd⟩ := h'
    show (((splitOnC '.' ip).all (fun o => decide (pyInt o ≤ 255))) &&
        decide (pyInt c ≤ 32)) =
      (((splitOnC '.' ip).all (fun o => decide (digitsToNat o ≤ 255))) &&
        decide (digitsToNat c ≤ 32))
    rw [pyInt_digits c hcd]
    have hall : ((splitOnC '.' ip).all (fun o => decide (pyInt o ≤ 255))) =
        ((splitOnC '.' ip).all (fun o => decide (digitsToNat o ≤ 255))) := by
      apply all_congr_mem
      intro o ho
      rw [pyInt_digits o (ipShape_tokens_digits ip o hip ho)]
    rw [hall]
  · exact Bool.noConfusion h

lemma ip_strict_equiv (v : List Char) :
    (ipcidrShapeCore v && ipValueOk v) = specIpOrCidr v := by
  cases hc : ipcidrShapeCore v with
  | false => rw [Bool.false_and, ← ipD_equiv v, hc, Bool.false_and]
  | true => rw [Bool.true_and, ipValueOk_eq_D v hc, ← ipD_equiv v, hc, Bool.true_and]

lemma ip_equiv_full (v : List Char) :
    is_valid_ip_or_cidr v =
      (specIpOrCidr v || (lastIsNewline v && specIpOrCidr v.dropLast)) := by
  unfold is_valid_ip_or_cidr ipcidrShape
  cases hnl : lastIsNewline v with
  | false =>
      simp only [Bool.false_and, Bool.or_false]
      exact ip_strict_equiv v
  | true =>
      have hv : v.dropLast ++ ['\n'] = v := by
        apply List.dropLast_append_getLast?
        have := hnl
        unfold lastIsNewline at this
        simpa using this
      simp only [Bool.true_and]
      rw [← hv]
      simp only [List.dropLast_concat]
      rw [ipcidrShapeCore_snoc_nl, specIpOrCidr_snoc_nl, Bool.false_or, Bool.false_or,
        ipValueOk_snoc_nl]
      exact ip_strict_equiv _

lemma portTokShape_snoc_nl (g : List Char) : portTokShape (g ++ ['\n']) = false := by
  unfold portTokShape
  have h : (['\n'].all (fun c => c.isDigit)) = false := by decide
  simp only [List.all_append, h, Bool.and_false]

lemma specPortTok_snoc_nl (g : List Char) : specPortTok (g ++ ['\n']) = false := by
  unfold specPortTok
  have h : (['\n'].all (fun c => c.isDigit)) = false := by decide
  simp only [List.all_append, h, Bool.and_false, Bool.false_and]

lemma portItemShape_snoc_nl (f : List Char) : portItemShape (f ++ ['\n']) = false := by
  obtain ⟨Q, g, q1, q2⟩ := splitOnC_snoc '-' '\n' (by decide) f
  unfold portItemShape
  rw [q2]
  rcases Q with _ | ⟨p, _ | ⟨p2, Q3⟩⟩
  · simp only [List.nil_append, portTokShape_snoc_nl]
  · simp only [List.cons_append, List.nil_append, portTokShape_snoc_nl, Bool.and_false]
  · rcases hq : Q3 ++ [g ++ ['\n']] with _ | ⟨x, xs⟩
    · simp at hq
    · simp only [List.cons_append, hq]

lemma specPortItem_snoc_nl (f : List Char) : specPortItem (f ++ ['\n']) = false := by
  obtain ⟨Q, g, q1, q2⟩ := splitOnC_snoc '-' '\n' (by decide) f
  unfold specPortItem
  rw [q2]
  rcases Q with _ | ⟨p, _ | ⟨p2, Q3⟩⟩
  · simp only [List.nil_append, specPortTok_snoc_nl]
  · simp only [List.cons_append, List.nil_append, specPortTok_snoc_nl, Bool.and_false]
  · rcases hq : Q3 ++ [g ++ ['\n']] with _ | ⟨x, xs⟩
    · simp at hq
    · simp only [List.cons_append, hq]

lemma portShapeCore_snoc_nl (t : List Char) : portShapeCore (t ++ ['\n']) = false := by
  obtain ⟨M, f, h1, h2⟩ := splitOnC_snoc ',' '\n' (by decide) t
  unfold portShapeCore
  rw [h2, List.all_append]
  simp only [List.all_cons, List.all_nil, portItemShape_snoc_nl, Bool.false_and,
    Bool.and_false]

lemma specPortList_snoc_nl (t : List Char) : specPortList (t ++ ['\n']) = false := by
  obtain ⟨M, f, h1, h2⟩ := splitOnC_snoc ',' '\n' (by decide) t
  unfold specPortList
  rw [h2, List.all_append]
  simp only [List.all_cons, List.all_nil, specPortItem_snoc_nl, Bool.false_and,
    Bool.and_false]

lemma portValueOk_snoc_nl (t : List Char) : portValueOk (t ++ ['\n']) = portValueOk t := by
  unfold portValueOk portTokens
  obtain ⟨M, f, h1, h2⟩ := splitOnC_snoc ',' '\n' (by decide) t
  rw [h1, h2, List.flatMap_append, List.flatMap_append]
  simp only [List.flatMap_cons, List.flatMap_nil, List.append_nil]
  obtain ⟨Q, g, q1, q2⟩ := splitOnC_snoc '-' '\n' (by decide) f
  rw [q1, q2, List.all_append, List.all_append, List.all_append, List.all_append]
  simp only [List.all_cons, List.all_nil]
  rw [pyInt_append_nl]

lemma portItemShape_tokens_digits (it o : List Char) (h : portItemShape it = true)
    (ho : o ∈ splitOnC '-' it) : o.all Char.isDigit = true := by
  unfold portItemShape at h
  revert h ho
  rcases splitOnC '-' it with _ | ⟨p, _ | ⟨q, _ | ⟨e, t⟩⟩⟩ <;> intro h ho
  · exact Bool.noConfusion h
  · have h' : portTokShape p = true := h
    simp only [portTokShape, Bool.and_eq_true] at h'
    rcases List.mem_cons.mp ho with rfl | ho'
    · exact h'.2
    · cases ho'
  · have h' : (portTokShape p && portTokShape q) = true := h
    simp only [portTokShape, Bool.and_eq_true] at h'
    rcases List.mem_cons.mp ho with rfl | ho'
    · exact h'.1.2
    rcases List.mem_cons.mp ho' with rfl | ho''
    · exact h'.2.2
    · cases ho''
  · exact Bool.noConfusion h

lemma portValueOk_eq_D (v : List Char) (h : portShapeCore v = true) :
    portValueOk v = portValueOkD v := by
  unfold portValueOk portValueOkD
  apply all_congr_mem
  intro tok htok
  unfold portTokens at htok
  rw [List.mem_flatMap] at htok
  obtain ⟨it, hit, htok'⟩ := htok
  have hitem : portItemShape it = true := by
    unfold portShapeCore at h
    rw [List.all_eq_true] at h
    exact h it hit
  rw [pyInt_digits tok (portItemShape_tokens_digits it tok hitem htok')]

lemma port_strict_equiv (v : List Char) :
    (portShapeCore v && portValueOk v) = specPortList v := by
  cases hc : portShapeCore v with
  | false => rw [Bool.false_and, ← portD_equiv v, hc, Bool.false_and]
  | true => rw [Bool.true_and, portValueOk_eq_D v hc, ← portD_equiv v, hc, Bool.true_and]

lemma port_equiv_full (v : List Char) :
    is_valid_port_range v =
      (specPortList v || (lastIsNewline v && specPortList v.dropLast)) := by
  unfold is_valid_port_range portShape
  cases hnl : lastIsNewline v with
  | false =>
      simp only [Bool.false_and, Bool.or_false]
      exact port_strict_equiv v
  | true =>
      have hv : v.dropLast ++ ['\n'] = v := by
        apply List.dropLast_append_getLast?
        have := hnl
        unfold lastIsNewline at this
        simpa using this
      simp only [Bool.true_and]
      rw [← hv]
      simp only [List.dropLast_concat]
      rw [portShapeCore_snoc_nl, specPortList_snoc_nl, Bool.false_or, Bool.false_or,
        portValueOk_snoc_nl]
      exact port_strict_equiv _

/-! ## Gate and execution-phase lemmas -/

lemma acceptsArg_false_iff (cfg : CmdConfig) (a : String) :
    acceptsArg cfg a = false ↔ specRejectsArg cfg a := by
  unfold acceptsArg specRejectsArg
  rw [← Bool.not_eq_true]
  simp only [Bool.or_eq_true, Bool.and_eq_true, decide_eq_true_eq, not_or]
  tauto

/-- C1: `execute_safe_command` raises `SecurityError` and performs no
OS exec exactly when the command name is not a whitelist key or some
argument is rejected by the flag/IP/port tests; when every argument is
accepted the argv handed to the OS is exactly the canonical absolute
path followed by the arguments in their original order (a vector, not
a shell string, and never the raw command name). -/
theorem execute_safe_command_gate_correct :
    ∀ (name : String) (args : List String),
      (executedArgv name args = none ↔
        lookupCmd name = none ∨
          ∃ cfg, lookupCmd name = some cfg ∧ ∃ a ∈ args, specRejectsArg cfg a) ∧
      (∀ cfg, lookupCmd name = some cfg →
        (∀ a ∈ args, ¬ specRejectsArg cfg a) →
          executedArgv name args = some (cfg.path :: args)) := by
  intro name args
  cases hl : lookupCmd name with
  | none =>
      constructor
      · simp [executedArgv, validate_command, hl, Except.toOption]
      · intro cfg hcfg
        exact absurd hcfg (by simp)
  | some cfg =>
      cases hf : args.find? (fun a => !acceptsArg cfg a) with
      | none =>
          have hok : executedArgv name args = some (cfg.path :: args) := by
            simp [executedArgv, validate_command, hl, hf, Except.toOption]
          have hacc : ∀ a ∈ args, acceptsArg cfg a = true := by
            rw [List.find?_eq_none] at hf
            intro a ha
            simpa using hf a ha
          constructor
          · rw [hok]
            constructor
            · intro h; exact absurd h (by simp)
            · rintro (h | ⟨cfg', hcfg', a, ha, hrej⟩)
              · exact absurd h (by simp)
              · cases Option.some_inj.mp hcfg'
                have := (acceptsArg_false_iff cfg a).mpr hrej
                rw [hacc a ha] at this
                exact absurd this (by simp)
          · intro cfg' hcfg' _
            cases Option.some_inj.mp hcfg'
            exact hok
      | some bad =>
          have hmem := List.mem_of_find?_eq_some hf
          have hbad : acceptsArg cfg bad = false := by
            simpa using List.find?_some hf
          have herr : executedArgv name args = none := by
            simp [executedArgv, validate_command, hl, hf, Except.toOption]
          constructor
          · rw [herr]
            refine ⟨fun _ => ?_, fun _ => rfl⟩
            exact Or.inr ⟨cfg, rfl, bad, hmem, (acceptsArg_false_iff cfg bad).mp hbad⟩
          · intro cfg' hcfg' hall
            cases Option.some_inj.mp hcfg'
            exact absurd ((acceptsArg_false_iff cfg bad).mp hbad) (hall bad hmem)

/-- Witness for C1: an accepted `nmap` invocation executes the
canonical path with the arguments in order. -/
theorem execute_safe_command_gate_witness :
    executedArgv "nmap" ["-F", "192.168.1.1"] =
      some ["/usr/bin/nmap", "-F", "192.168.1.1"] :=
  (execute_safe_command_gate_correct "nmap" ["-F", "192.168.1.1"]).2
    ⟨"/usr/bin/nmap", ["-F", "-T4", "-sn", "-Pn", "-p", "--host-timeout", "60", "-oG", "-"],
      true⟩
    rfl (by decide)

/-- C2 counterexample: the program accepts `'1.2.3.4\n'` (Python's `$`
matches before a single trailing newline and `int()` strips the
whitespace), which is not of the claimed dotted-decimal shape, so the
claimed "accepts iff / rejects every other shape" biconditional is
false at this input. -/
theorem ip_cidr_trailing_newline_counterexample :
    is_valid_ip_or_cidr "1.2.3.4\n".data = true ∧
      specIpOrCidr "1.2.3.4\n".data = false :=
  ⟨by decide, by decide⟩

/-- C2 (amended): the IP/CIDR validator accepts a string iff it — or
the string minus a single trailing newline, which Python's `$` anchor
tolerates — is four dot-separated decimal octets each at most 255,
optionally followed by `/N` with `0 ≤ N ≤ 32`; the claim's five
examples decide as stated, and `'1.2.3.4\n'` is accepted. -/
theorem ip_cidr_validator_amended :
    (∀ v : List Char, is_valid_ip_or_cidr v =
      (specIpOrCidr v || (lastIsNewline v && specIpOrCidr v.dropLast))) ∧
    is_valid_ip_or_cidr "192.168.1.1".data = true ∧
    is_valid_ip_or_cidr "10.0.0.0/24".data = true ∧
    is_valid_ip_or_cidr "1.2.3.4\n".data = true ∧
    is_valid_ip_or_cidr "999.1.1.1".data = false ∧
    is_valid_ip_or_cidr "1.2.3.4/33".data = false ∧
    is_valid_ip_or_cidr "1.2.3.4; rm -rf /".data = false :=
  ⟨ip_equiv_full, by decide, by decide, by decide, by decide, by decide, by decide⟩

/-- C3 counterexample: the program accepts `'80\n'` (same `$`
trailing-newline tolerance, `int('80\n') = 80`), which is not a
comma-separated port list, so the claimed biconditional is false at
this input. -/
theorem port_range_trailing_newline_counterexample :
    is_valid_port_range "80\n".data = true ∧
      specPortList "80\n".data = false :=
  ⟨by decide, by decide⟩

/-- C3 (amended): the port-range validator accepts a string iff it —
or the string minus a single trailing newline, which Python's `$`
anchor tolerates — is one or more comma-separated items, each a single
port or an `a-b` range, with every numeric token in `[1, 65535]`; the
claim's six examples decide as stated, and `'80\n'` is accepted. -/
theorem port_range_validator_amended :
    (∀ v : List Char, is_valid_port_range v =
      (specPortList v || (lastIsNewline v && specPortList v.dropLast))) ∧
    is_valid_port_range "80".data = true ∧
    is_valid_port_range "1-1000".data = true ∧
    is_valid_port_range "21,22,80,443".data = true ∧
    is_valid_port_range "80\n".data = true ∧
    is_valid_port_range "0".data = false ∧
    is_valid_port_range "65536".data = false ∧
    is_valid_port_range "abc".data = false :=
  ⟨port_equiv_full, by decide, by decide, by decide, by decide, by decide, by decide,
    by decide⟩

/-- C4: once validation passes, `execute_safe_command` never raises on
an execution failure: it always returns a result triple; a timeout
yields `("", "Command timeout (Ns)", 124)` (the child having been
killed and reaped inside `subprocess.run`); any other execution
exception yields `("", str(e), 1)`. -/
theorem exec_failures_degrade_to_results :
    ∀ (name : String) (args : List String) (cfg : CmdConfig) (t : Nat)
      (run : List String → ExecOutcome),
      lookupCmd name = some cfg →
      (∀ a ∈ args, acceptsArg cfg a = true) →
      (∃ r, execute_safe_command name args t run = .ok r) ∧
      (run (cfg.path :: args) = .timedOut →
        execute_safe_command name args t run =
          .ok ("", "Command timeout (" ++ toString t ++ "s)", 124)) ∧
      (∀ msg, run (cfg.path :: args) = .failed msg →
        execute_safe_command name args t run = .ok ("", msg, 1)) := by
  intro name args cfg t run hl hacc
  have hf : args.find? (fun a => !acceptsArg cfg a) = none := by
    rw [List.find?_eq_none]
    intro a ha
    simp [hacc a ha]
  have hval : validate_command name args = .ok (cfg.path :: args) := by
    simp [validate_command, hl, hf]
  refine ⟨⟨runWhitelisted t (run (cfg.path :: args)),
    by simp [execute_safe_command, hval]⟩, ?_, ?_⟩
  · intro hrun
    simp [execute_safe_command, hval, hrun, runWhitelisted]
  · intro msg hrun
    simp [execute_safe_command, hval, hrun, runWhitelisted]

/-- Witness for C4: a validated `nmap -sn` call whose exec layer times
out returns the synthetic 124 result. -/
theorem exec_failures_witness :
    execute_safe_command "nmap" ["-sn"] 30 (fun _ => ExecOutcome.timedOut) =
      Except.ok ("", "Command timeout (30s)", 124) :=
  (exec_failures_degrade_to_results "nmap" ["-sn"]
    ⟨"/usr/bin/nmap", ["-F", "-T4", "-sn", "-Pn", "-p", "--host-timeout", "60", "-oG", "-"],
      true⟩
    30 (fun _ => ExecOutcome.timedOut) rfl (by decide)).2.1 rfl

/-- C5: sudo token lifecycle — set-then-immediate-get returns the
value; a get whose age exceeds the TTL returns `None` and clears both
stored fields; clear is idempotent and a cleared manager answers every
get with `None` (until the next set, which is the only operation that
stores a value). -/
theorem sudo_token_lifecycle :
    ∀ (s : SudoTokenManager) (p : String) (ts now : Nat),
      (∀ q t, get_password (set_password s q t) t = (some q, set_password s q t)) ∧
      (s.password = some p → s.timestamp = some ts → s.timeout_seconds < now - ts →
        get_password s now = (none, { s with password := none, timestamp := none })) ∧
      (sudoClear (sudoClear s) = sudoClear s) ∧
      ((sudoClear s).password = none) ∧
      (get_password (sudoClear s) now = (none, sudoClear s)) := by
  intro s p ts now
  refine ⟨?_, ?_, ?_, ?_, ?_⟩
  · intro q t
    simp [get_password, set_password]
  · intro hp ht hexp
    simp only [get_password, hp, ht, Option.getD_some]
    rw [if_pos hexp]
  · unfold sudoClear
    cases hp : s.password <;> simp [hp]
  · unfold sudoClear
    cases hp : s.password <;> simp [hp]
  · unfold sudoClear get_password
    cases hp : s.password <;> simp [hp]

/-- Witness for C5: a token set at time 0 with TTL 900 is expired and
cleared by a get at time 1000. -/
theorem sudo_token_witness :
    get_password (⟨some "pw", some 0, 900⟩ : SudoTokenManager) 1000 =
      (none, (⟨none, none, 900⟩ : SudoTokenManager)) :=
  (sudo_token_lifecycle ⟨some "pw", some 0, 900⟩ "pw" 0 1000).2.1 rfl rfl (by decide)

/-- C6: every `run_safe` admission first prunes dead handles and
refuses (spawning nothing) exactly when the pruned live count has
reached the cap; `cleanup_all` signals every tracked live handle and
leaves the tracked list with zero entries. -/
theorem process_cap_and_cleanup :
    ∀ (pm : ProcessManager),
      ((runSafeAdmission pm).1.active_processes =
        pm.active_processes.filter (fun p => p.alive)) ∧
      ((runSafeAdmission pm).2 = false ↔
        pm.max_processes ≤ (pm.active_processes.filter (fun p => p.alive)).length) ∧
      ((cleanup_all pm).1.active_processes.length = 0) ∧
      (∀ h ∈ pm.active_processes, h.alive = true → h ∈ (cleanup_all pm).2) := by
  intro pm
  refine ⟨?_, ?_, rfl, ?_⟩
  · by_cases h : pm.max_processes ≤ (pm.active_processes.filter (fun p => p.alive)).length <;>
      simp [runSafeAdmission, h]
  · by_cases h : pm.max_processes ≤ (pm.active_processes.filter (fun p => p.alive)).length <;>
      simp [runSafeAdmission, h]
  · intro h hmem halive
    simp [cleanup_all, List.mem_filter, hmem, halive]

/-- Witness for C6: a manager at its cap of 1 refuses a spawn, and
`cleanup_all` empties the tracked list after signalling the live
handle. -/
theorem process_cap_witness :
    (runSafeAdmission ⟨1, [⟨5, true⟩]⟩).2 = false ∧
    (cleanup_all (⟨1, [⟨5, true⟩]⟩ : ProcessManager)).1.active_processes.length = 0 ∧
    (⟨5, true⟩ : ProcHandle) ∈ (cleanup_all (⟨1, [⟨5, true⟩]⟩ : ProcessManager)).2 :=
  ⟨(process_cap_and_cleanup ⟨1, [⟨5, true⟩]⟩).2.1.mpr (by decide),
   (process_cap_and_cleanup ⟨1, [⟨5, true⟩]⟩).2.2.1,
   (process_cap_and_cleanup ⟨1, [⟨5, true⟩]⟩).2.2.2 ⟨5, true⟩ (by decide) rfl⟩

/-- C7: the timeout handler of `run_safe` sends SIGKILL first and only
escalates to SIGTERM — the reverse of the graceful-then-hard protocol
the claim states (compare `specTimeoutSignals`, whose first signal is
always SIGTERM). -/
theorem run_safe_timeout_signal_order :
    runSafeTimeoutSignals true = [Sig.sigkill] ∧
    runSafeTimeoutSignals false = [Sig.sigkill, Sig.sigterm] ∧
    specTimeoutSignals true = [Sig.sigterm] ∧
    specTimeoutSignals false = [Sig.sigterm, Sig.sigkill] :=
  ⟨rfl, rfl, rfl, rfl⟩

/-! ## Scan-cache lemmas -/

lemma length_filter_lt {α : Type} (p : α → Bool) (l : List α) (e : α)
    (hmem : e ∈ l) (hp : p e = false) : (l.filter p).length < l.length := by
  induction l with
  | nil => cases hmem
  | cons x xs ih =>
    rcases List.mem_cons.mp hmem with rfl | hmem'
    · have h1 := List.length_filter_le p xs
      have h2 : List.filter p (e :: xs) = List.filter p xs := by
        simp [List.filter_cons, hp]
      rw [h2]
      simp only [List.length_cons]
      omega
    · by_cases hx : p x = true
      · simp only [List.filter_cons, hx, if_true, List.length_cons]
        exact Nat.succ_lt_succ (ih hmem')
      · have h2 : List.filter p (x :: xs) = List.filter p xs := by
          simp [List.filter_cons, hx]
        rw [h2]
        have h3 := ih hmem'
        simp only [List.length_cons]
        omega

/-- C8: the scan cache never exceeds its capacity `N`; inserting at
capacity with all-distinct targets drops the oldest (head) entry;
inserting for a target already present replaces that entry without
evicting others; and a lookup whose first target match has aged past
the 3600-second TTL returns `None` and removes that entry. -/
theorem scan_cache_bounds_and_expiry :
    ∀ (now : Nat) (target results : String) (N : Nat) (cache : List ScanEntry),
      (0 < N → cache.length ≤ N →
        (add_to_cache now target results N cache).length ≤ N) ∧
      (0 < N → cache.length = N → (∀ e ∈ cache, e.target ≠ target) →
        add_to_cache now target results N cache =
          cache.tail ++ [⟨target, now, results⟩]) ∧
      ((∃ e ∈ cache, e.target = target) → cache.length ≤ N →
        add_to_cache now target results N cache =
          cache.filter (fun e => e.target != target) ++ [⟨target, now, results⟩]) ∧
      (∀ pre e post, cache = pre ++ e :: post →
        (∀ q ∈ pre, q.target ≠ target) → e.target = target →
        3600 ≤ now - e.timestamp →
        get_cached_result now target cache = (none, pre ++ post)) := by
  intro now target results N cache
  refine ⟨?_, ?_, ?_, ?_⟩
  · intro hN hlen
    have hf := List.length_filter_le (fun e => e.target != target) cache
    simp only [add_to_cache]
    by_cases hN2 : N <
        (cache.filter (fun e => e.target != target) ++
          [(⟨target, now, results⟩ : ScanEntry)]).length
    · rw [if_pos hN2]
      simp only [sliceLastPy]
      rw [if_neg (Nat.pos_iff_ne_zero.mp hN)]
      simp only [List.length_drop]
      omega
    · rw [if_neg hN2]
      simp only [List.length_append, List.length_cons, List.length_nil] at hN2 ⊢
      omega
  · intro hN hlen hall
    unfold add_to_cache sliceLastPy
    have hfe : cache.filter (fun e => e.target != target) = cache :=
      List.filter_eq_self.mpr (fun e he => by simp [bne_iff_ne, hall e he])
    rw [hfe]
    have hgt : N < (cache ++ [(⟨target, now, results⟩ : ScanEntry)]).length := by
      simp [hlen]
    rw [if_pos hgt, if_neg (Nat.pos_iff_ne_zero.mp hN)]
    simp only [List.length_append, List.length_cons, List.length_nil, hlen]
    have h1 : N + (0 + 1) - N = 1 := by omega
    rw [h1, List.drop_append_of_le_length (by omega), List.drop_one]
  · intro ⟨e, hmem, htgt⟩ hlen
    unfold add_to_cache
    have hlt : (cache.filter (fun e => e.target != target)).length < cache.length :=
      length_filter_lt _ cache e hmem (by simp [htgt])
    rw [if_neg (by simp only [List.length_append, List.length_cons, List.length_nil]; omega)]
  · intro pre e post hdecomp hpre htgt hstale
    subst hdecomp
    induction pre with
    | nil =>
      simp only [List.nil_append]
      unfold get_cached_result
      rw [if_pos htgt, if_neg (by omega)]
    | cons q pre' ih =>
      have hq : ¬ q.target = target := hpre q (List.mem_cons_self q pre')
      have ih' := ih (fun x hx => hpre x (List.mem_cons_of_mem q hx))
      simp only [List.cons_append]
      unfold get_cached_result
      rw [if_neg hq]
      simp only [List.cons_append] at ih' ⊢
      rw [ih']

/-- Witness for C8: at capacity 2 the oldest entry is evicted, and a
stale entry is removed by the lookup that discovers it. -/
theorem scan_cache_witness :
    add_to_cache 5 "c" "rc" 2 [⟨"a", 0, "ra"⟩, ⟨"b", 1, "rb"⟩] =
      [⟨"b", 1, "rb"⟩, ⟨"c", 5, "rc"⟩] ∧
    get_cached_result 5000 "a" [⟨"a", 0, "ra"⟩] = (none, []) :=
  ⟨(scan_cache_bounds_and_expiry 5 "c" "rc" 2 [⟨"a", 0, "ra"⟩, ⟨"b", 1, "rb"⟩]).2.1
      (by decide) (by decide) (by decide),
   (scan_cache_bounds_and_expiry 5000 "a" "ra" 5 [⟨"a", 0, "ra"⟩]).2.2.2
      [] ⟨"a", 0, "ra"⟩ [] rfl (by simp) rfl (by decide)⟩

/-- C9: evaluation of `ImageCache.put` at the failing input.  A first
150000-byte item is stored normally, but a second one makes `put` loop
forever: the outer loop condition counts the incoming size while
`_evict_lru` stops as soon as the count is below 3 and the stored
total is at most 256KB, so the condition never becomes false. -/
theorem image_cache_put_diverges :
    ImageCache.put ⟨3, 262144, [], []⟩ "a" 150000 =
      PutResult.stored ⟨3, 262144, [("a", 150000)], ["a"]⟩ ∧
    ImageCache.put ⟨3, 262144, [("a", 150000)], ["a"]⟩ "b" 150000 =
      PutResult.hangs :=
  ⟨by decide, by decide⟩

/-! ## SSID sanitizer lemmas -/

lemma mem_pyStrip (c : Char) (l : List Char) (h : c ∈ pyStrip l) : c ∈ l := by
  unfold pyStrip at h
  rw [List.mem_reverse] at h
  have h2 := (List.dropWhile_sublist _).subset h
  rw [List.mem_reverse] at h2
  exact (List.dropWhile_sublist _).subset h2

lemma escapeShell_mem (c : Char) (l : List Char) (h : c ∈ escapeShell l) :
    c = '\\' ∨ c ∈ l := by
  unfold escapeShell at h
  rw [List.mem_flatMap] at h
  obtain ⟨x, hx, hcx⟩ := h
  by_cases hm : shellMetaChars.contains x
  · rw [if_pos hm] at hcx
    rcases List.mem_cons.mp hcx with rfl | hcx'
    · exact Or.inl rfl
    · rcases List.mem_cons.mp hcx' with rfl | hnil
      · exact Or.inr hx
      · cases hnil
  · rw [if_neg hm] at hcx
    rcases List.mem_cons.mp hcx with rfl | hnil
    · exact Or.inr hx
    · cases hnil

lemma escapeShell_length (l : List Char) (h : l ≠ []) :
    0 < (escapeShell l).length := by
  cases l with
  | nil => exact absurd rfl h
  | cons c t =>
      unfold escapeShell
      simp only [List.flatMap_cons, List.length_append]
      have hlen : 0 < (if shellMetaChars.contains c then ['\\', c] else [c]).length := by
        by_cases hm : shellMetaChars.contains c = true
        · rw [if_pos hm]; simp
        · rw [if_neg hm]; simp
      omega

/-- C10: `sanitize_ssid` always returns a non-empty string; the empty
input, and any input with nothing left after the printable filter and
strip, yield the `'<HIDDEN>'` placeholder; and every character of the
result is printable. -/
theorem sanitize_ssid_nonempty_printable :
    ∀ (s : List Char),
      0 < (sanitize_ssid s).length ∧
      (s.isEmpty = true → sanitize_ssid s = hiddenSsid) ∧
      ((pyStrip (s.filter pyPrintable)).isEmpty = true → sanitize_ssid s = hiddenSsid) ∧
      (∀ c ∈ sanitize_ssid s, pyPrintable c = true) := by
  intro s
  by_cases h0 : s.isEmpty
  · have hhid : sanitize_ssid s = hiddenSsid := by
      simp [sanitize_ssid, h0]
    refine ⟨?_, fun _ => hhid, fun _ => hhid, ?_⟩
    · rw [hhid]; decide
    · rw [hhid]; decide
  · by_cases h1 : ((pyStrip (s.filter pyPrintable)).take 32).isEmpty
    · have hhid : sanitize_ssid s = hiddenSsid := by
        simp [sanitize_ssid, h0, h1]
      refine ⟨?_, fun _ => hhid, fun _ => hhid, ?_⟩
      · rw [hhid]; decide
      · rw [hhid]; decide
    · have hne : sanitize_ssid s =
          escapeShell ((pyStrip (s.filter pyPrintable)).take 32) := by
        simp [sanitize_ssid, h0, h1]
      have hs2 : (pyStrip (s.filter pyPrintable)).take 32 ≠ [] := by
        intro hcon
        rw [List.isEmpty_iff] at h1
        exact h1 hcon
      refine ⟨?_, ?_, ?_, ?_⟩
      · rw [hne]
        exact escapeShell_length _ hs2
      · intro hcon
        exact absurd hcon (by simpa [List.isEmpty_iff] using h0)
      · intro hcon
        rw [List.isEmpty_iff] at hcon
        rw [hcon] at hs2
        exact absurd (List.take_nil) hs2
      · intro c hc
        rw [hne] at hc
        rcases escapeShell_mem c _ hc with rfl | hcm
        · decide
        · have h3 := List.take_subset 32 _ hcm
          have h4 := mem_pyStrip c _ h3
          exact (List.mem_filter.mp h4).2

/-- Witness for C10: the empty SSID yields the placeholder and a
normal SSID yields a non-empty result. -/
theorem sanitize_ssid_witness :
    sanitize_ssid [] = hiddenSsid ∧
    0 < (sanitize_ssid "a(b".data).length :=
  ⟨(sanitize_ssid_nonempty_printable []).2.1 rfl,
   (sanitize_ssid_nonempty_printable "a(b".data).1⟩

end DedsecOS
